import Mathlib

/-!
# FitWell persistence core — verification development

Shallow embedding of the FitWell habit tracker's persistence layer
(`src/main/database/index.ts`), its SQLite schema
(`src/main/database/schema.ts`), and the renderer's day-status derivation
(`src/renderer/stores/goalStore.ts`), together with proofs about the
embedded operations.

Modelling conventions:
* SQLite tables are lists of row structures inside a `DB` structure;
  `INSERT` appends, `UPDATE ... WHERE id = ?` maps over rows, `DELETE`
  filters, and `INSERT OR REPLACE` deletes every row conflicting on a
  unique key and then appends (SQLite's documented conflict semantics).
* `uuidv4()` id generation is modelled by a monotone counter `nextId`
  held in `DB`; freshness of generated ids is the counter's monotonicity.
* ISO `YYYY-MM-DD` date strings are modelled as natural numbers
  `y*10000 + m*100 + d`; lexicographic comparison of equal-length ISO
  strings coincides with numeric comparison of this encoding.
* `new Date().toISOString()` timestamps are opaque `Nat` values passed
  in as a `now` parameter.
* JavaScript `Date` calendar arithmetic (epoch-day differences, month
  normalisation in the `Date(year, monthIndex, day)` constructor, and
  `getDate()`) is embedded with the standard civil-calendar/epoch-day
  conversion algorithms on `Int`, which realise the ECMAScript
  `MakeDay`/`DateFromTime` semantics for date-only values.
* `REAL` columns never take part in arithmetic here, so their value
  space is modelled by `ℚ`.
-/

/-! ## Civil calendar arithmetic (JS `Date` semantics for date-only values) -/

/-- Days since 1970-01-01 of the civil date `(y, m, d)` with `m ∈ [1,12]`
(the classical days-from-civil algorithm; all divisors are positive so `/`
is floor division). This embeds ECMAScript `MakeDay` restricted to whole
days, and equally the epoch-day value of an ISO `YYYY-MM-DD` string parsed
by `new Date(...)`. -/
def civilToDays (y m d : Int) : Int :=
  let y' := if m ≤ 2 then y - 1 else y
  let era := y' / 400
  let yoe := y' - era * 400
  let mp := if 2 < m then m - 3 else m + 9
  let doy := (153 * mp + 2) / 5 + d - 1
  let doe := yoe * 365 + yoe / 4 - yoe / 100 + doy
  era * 146097 + doe - 719468

/-- A civil calendar date. -/
structure CivilDate where
  year : Int
  month : Int
  day : Int
deriving DecidableEq, Repr

/-- Decoding of a day-of-era `doe ∈ [0, 146096]` within 400-year era
`era` into a civil date (the second half of the classical civil-from-days
algorithm). -/
def civilOfDoe (era doe : Int) : CivilDate :=
  let yoe := (doe - doe / 1460 + doe / 36524 - doe / 146096) / 365
  let y := yoe + era * 400
  let doy := doe - (365 * yoe + yoe / 4 - yoe / 100)
  let mp := (5 * doy + 2) / 153
  let d := doy - (153 * mp + 2) / 5 + 1
  let m := if mp < 10 then mp + 3 else mp - 9
  ⟨if m ≤ 2 then y + 1 else y, m, d⟩

/-- Inverse of `civilToDays`: the civil date of an epoch-day number
(the classical civil-from-days algorithm). Embeds the ECMAScript
`YearFromTime`/`MonthFromTime`/`DateFromTime` decomposition for whole
days. -/
def civilFromDays (z0 : Int) : CivilDate :=
  let z := z0 + 719468
  let era := z / 146097
  let doe := z - era * 146097
  civilOfDoe era doe

/-- ECMAScript `MakeDay(y, m, d)` for a 0-based month index `m` (with
month overflow normalisation) and day-of-month `d`, as used by the JS
`Date(year, monthIndex, day)` constructor. -/
def jsMakeDay (y m d : Int) : Int :=
  let ym := y + m / 12
  let mn := m % 12
  civilToDays ym (mn + 1) 1 + d - 1

/-- ECMAScript `getDate()` of an epoch-day number: its day-of-month. -/
def jsGetDate (t : Int) : Int := (civilFromDays t).day

/-- Day-of-month of "day 0 of month index `m` of year `y`": `getDate()`
after `MakeDay(y, m, 0)`, with no remapping of the year argument. -/
def rawTotalDays (y m : Int) : Int := jsGetDate (jsMakeDay y m 0)

/-- The ECMAScript `Date` constructor's two-digit-year rule: a year
argument in 0..99 denotes 1900 + year. -/
def jsFullYear (y : Int) : Int := if 0 ≤ y ∧ y ≤ 99 then y + 1900 else y

/-- Embedding of `new Date(year, monthNum, 0).getDate()` from
`getMonthSummary`, where `monthNum` is the 1-based month parsed from the
`"YYYY-MM"` argument (used by the code as a 0-based index, i.e. the
following month, with day 0), including the `Date` constructor's
two-digit-year remapping of the year argument. -/
def jsTotalDays (y m : Int) : Int := rawTotalDays (jsFullYear y) m

/-- Gregorian leap-year rule (spec-side ground truth). -/
def isLeapYear (y : Int) : Bool := (y % 4 = 0 ∧ y % 100 ≠ 0) ∨ y % 400 = 0

/-- Spec-side ground truth: the true number of days of month `m` of year
`y`, via the standard month-length table and the Gregorian leap rule. -/
def daysInMonth (y m : Int) : Int :=
  if m = 2 then (if isLeapYear y then 29 else 28)
  else if m = 4 ∨ m = 6 ∨ m = 9 ∨ m = 11 then 30
  else 31

theorem civilToDays_add_400 (y m d : Int) :
    civilToDays (y + 400) m d = civilToDays y m d + 146097 := by
  simp only [civilToDays]
  split_ifs <;> omega

theorem civilOfDoe_day_era (era era' doe : Int) :
    (civilOfDoe era doe).day = (civilOfDoe era' doe).day := rfl

theorem civilFromDays_day_add_146097 (z : Int) :
    (civilFromDays (z + 146097)).day = (civilFromDays z).day := by
  simp only [civilFromDays]
  have h1 : (z + 146097 + 719468) / 146097 = (z + 719468) / 146097 + 1 := by
    omega
  rw [h1]
  have h2 : z + 146097 + 719468 - ((z + 719468) / 146097 + 1) * 146097
      = z + 719468 - (z + 719468) / 146097 * 146097 := by ring
  rw [h2]
  exact civilOfDoe_day_era _ _ _

theorem rawTotalDays_add_400 (y m : Int) :
    rawTotalDays (y + 400) m = rawTotalDays y m := by
  simp only [rawTotalDays, jsMakeDay, jsGetDate]
  have h1 : y + 400 + m / 12 = (y + m / 12) + 400 := by omega
  rw [h1, civilToDays_add_400]
  have h2 : civilToDays (y + m / 12) (m % 12 + 1) 1 + 146097 + 0 - 1
      = (civilToDays (y + m / 12) (m % 12 + 1) 1 + 0 - 1) + 146097 := by omega
  rw [h2, civilFromDays_day_add_146097]

theorem isLeapYear_add_400 (y : Int) : isLeapYear (y + 400) = isLeapYear y := by
  simp only [isLeapYear, decide_eq_decide]
  omega

theorem daysInMonth_add_400 (y m : Int) :
    daysInMonth (y + 400) m = daysInMonth y m := by
  simp only [daysInMonth, isLeapYear_add_400]

theorem rawTotalDays_shift (m : Int) :
    ∀ (k : Int) (y : Int), rawTotalDays (y + 400 * k) m = rawTotalDays y m := by
  intro k
  induction k using Int.induction_on with
  | hz => intro y; norm_num
  | hp n ih =>
      intro y
      have h : y + 400 * ((n : Int) + 1) = (y + 400 * n) + 400 := by ring
      rw [h, rawTotalDays_add_400, ih]
  | hn n ih =>
      intro y
      have h : y + 400 * (-(n : Int) - 1) + 400 = y + 400 * (-(n : Int)) := by ring
      have := rawTotalDays_add_400 (y + 400 * (-(n : Int) - 1)) m
      rw [h] at this
      rw [← this, ih]

theorem daysInMonth_shift (m : Int) :
    ∀ (k : Int) (y : Int), daysInMonth (y + 400 * k) m = daysInMonth y m := by
  intro k y
  simp only [daysInMonth]
  have : isLeapYear (y + 400 * k) = isLeapYear y := by
    simp only [isLeapYear, decide_eq_decide]
    omega
  rw [this]

set_option maxRecDepth 100000 in
set_option maxHeartbeats 4000000 in
theorem rawTotalDays_base : ∀ r : Nat, r < 400 → ∀ mm : Nat, mm < 12 →
    rawTotalDays r (mm + 1) = daysInMonth r (mm + 1) := by decide

/-- Over every year, the JS `new Date(year, monthNum, 0).getDate()` idiom
computes exactly the true month length. -/
theorem rawTotalDays_eq_daysInMonth (y m : Int) (h1 : 1 ≤ m) (h2 : m ≤ 12) :
    rawTotalDays y m = daysInMonth y m := by
  have hy : y = y % 400 + 400 * (y / 400) := by omega
  have hr0 : 0 ≤ y % 400 := by omega
  have hr1 : y % 400 < 400 := by omega
  rw [hy, rawTotalDays_shift, daysInMonth_shift]
  have hrn : ((y % 400).toNat : Int) = y % 400 := Int.toNat_of_nonneg hr0
  have hmn : (((m - 1).toNat : Int) + 1) = m := by omega
  have hb := rawTotalDays_base (y % 400).toNat (by omega) (m - 1).toNat (by omega)
  rw [hrn, hmn] at hb
  exact hb

/-- Remapping the year through the two-digit-year rule only changes the
month length at February of year 0 (year 0 is a Gregorian leap year but
1900 is not). -/
theorem daysInMonth_fullYear (y m : Int) (hy : ¬(y = 0 ∧ m = 2)) :
    daysInMonth (jsFullYear y) m = daysInMonth y m := by
  simp only [jsFullYear]
  by_cases h : 0 ≤ y ∧ y ≤ 99
  · rw [if_pos h]
    by_cases hm : m = 2
    · subst hm
      have hy0 : y ≠ 0 := fun h0 => hy ⟨h0, rfl⟩
      have hle : isLeapYear (y + 1900) = isLeapYear y := by
        simp only [isLeapYear, decide_eq_decide]
        omega
      simp [daysInMonth, hle]
    · simp [daysInMonth, hm]
  · rw [if_neg h]

/-- `jsTotalDays` computes the length of the month of the remapped year,
for every year argument. -/
theorem jsTotalDays_eq_daysInMonth_fullYear (y m : Int) (h1 : 1 ≤ m) (h2 : m ≤ 12) :
    jsTotalDays y m = daysInMonth (jsFullYear y) m :=
  rawTotalDays_eq_daysInMonth (jsFullYear y) m h1 h2

/-- Outside February of year 0, the JS `new Date(year, monthNum, 0)`
idiom computes exactly the true month length; at year 0 the
two-digit-year rule makes it February 1900's length (28) instead of
year 0's (29). -/
theorem jsTotalDays_eq_daysInMonth (y m : Int) (h1 : 1 ≤ m) (h2 : m ≤ 12)
    (hy : ¬(y = 0 ∧ m = 2)) : jsTotalDays y m = daysInMonth y m :=
  (jsTotalDays_eq_daysInMonth_fullYear y m h1 h2).trans (daysInMonth_fullYear y m hy)

/-! ## Streak engine (`getStreak` in `src/main/database/index.ts`)

`getStreak` fetches the completed-log dates of a goal ordered
`date DESC`, then computes the current and longest streaks. The
embedding takes that descending date list (as epoch-day numbers) and
"today" (epoch day of the current clock) as parameters; `yesterday` is
`today - 1` since `Date.now() - 86400000` shifts exactly one UTC day. -/

/-- Result shape of `getStreak` (the `Streak` domain type). -/
structure Streak where
  goalId : Nat
  currentStreak : Nat
  longestStreak : Nat
  lastCompletedDate : Option Int
deriving DecidableEq, Repr

/-- The current-streak `while` loop: starting at anchor day `d`, count
consecutive days present in the completed-date set, walking backwards.
The JS loop terminates because each counted day is a distinct member of
the finite set; `fuel = dates.length + 1` therefore always suffices and
the `0` fuel case is never the value-determining branch. -/
def walkBack (dates : List Int) : Nat → Int → Nat
  | 0, _ => 0
  | fuel + 1, d => if d ∈ dates then walkBack dates fuel (d - 1) + 1 else 0

/-- The longest-streak `for` loop of `getStreak`: `prev` is
`dates[i-1]`, the list argument the remaining entries, `longest`/`temp`
the two accumulators; the final `max` is applied when the list ends. -/
def longestLoop : Int → List Int → Nat → Nat → Nat
  | _, [], longest, temp => max longest temp
  | prev, d :: rest, longest, temp =>
    if prev - d = 1 then longestLoop d rest longest (temp + 1)
    else longestLoop d rest (max longest temp) 1

/-- `getStreak`, given the goal id, today's epoch day, and the
completed-log dates of the goal in descending order (the result of the
`completed = 1 ORDER BY date DESC` query). -/
def getStreak (goalId : Nat) (today : Int) (dates : List Int) : Streak :=
  match dates with
  | [] => ⟨goalId, 0, 0, none⟩
  | d0 :: rest =>
    let yesterday := today - 1
    let currentStreak :=
      if d0 = today ∨ d0 = yesterday then walkBack (d0 :: rest) (rest.length + 2) d0
      else 0
    let longestStreak := longestLoop d0 rest 0 1
    ⟨goalId, currentStreak, longestStreak, some d0⟩

/-! Spec-side description of the longest streak: split the descending
date list into maximal runs of consecutive calendar days (adjacent
entries differing by exactly one) and take the maximum run length,
including the final run. -/

/-- Run-length decomposition helper: `n` is the length of the run
currently being read, `prev` its last entry. -/
def runsGo : Int → List Int → Nat → List Nat
  | _, [], n => [n]
  | prev, d :: rest, n =>
    if prev - d = 1 then runsGo d rest (n + 1) else n :: runsGo d rest 1

/-- Lengths of the maximal consecutive-day runs of a date list. -/
def runLengths : List Int → List Nat
  | [] => []
  | d :: rest => runsGo d rest 1

/-- Spec-side longest streak: the maximum length of a run of consecutive
calendar days in the list. -/
def maxRunLength (dates : List Int) : Nat := (runLengths dates).foldr max 0

theorem longestLoop_eq_runs (rest : List Int) :
    ∀ (prev : Int) (longest temp : Nat),
      longestLoop prev rest longest temp
        = max longest ((runsGo prev rest temp).foldr max 0) := by
  induction rest with
  | nil =>
      intro prev longest temp
      simp [longestLoop, runsGo]
  | cons d rest ih =>
      intro prev longest temp
      simp only [longestLoop, runsGo]
      split_ifs with h
      · exact ih d longest (temp + 1)
      · rw [ih d (max longest temp) 1]
        simp [List.foldr_cons, Nat.max_assoc]

example : getStreak 7 (civilToDays 2024 6 5)
    [civilToDays 2024 6 5, civilToDays 2024 6 3, civilToDays 2024 6 2,
     civilToDays 2024 6 1]
    = ⟨7, 1, 3, some (civilToDays 2024 6 5)⟩ := by decide

/-! ## Store model (`schema.ts` tables plus the module-level id counter) -/

/-- Row of the `users` table. -/
structure UserRow where
  id : Nat
  name : String
  first_name : Option String
  last_name : Option String
  birthday : Option String
  profile_photo : Option String
  avatar_color : String
  created_at : Nat
deriving DecidableEq, Repr

/-- Row of the `goals` table (`is_active` stored as the written 0/1). -/
structure GoalRow where
  id : Nat
  user_id : Nat
  name : String
  type : String
  frequency : String
  target_value : Option ℚ
  unit : Option String
  is_active : Nat
  created_at : Nat
  updated_at : Nat
deriving DecidableEq, Repr

/-- Row of the `daily_logs` table (`completed` stored as the written 0/1,
`date` a `YYYY-MM-DD` string in the numeric encoding). -/
structure DailyLogRow where
  id : Nat
  user_id : Nat
  goal_id : Nat
  date : Nat
  completed : Nat
  value : Option ℚ
  notes : Option String
  created_at : Nat
  updated_at : Nat
deriving DecidableEq, Repr

/-- Row of the `weight_entries` table. -/
structure WeightRow where
  id : Nat
  user_id : Nat
  date : Nat
  weight : ℚ
  unit : String
  notes : Option String
  created_at : Nat
deriving DecidableEq, Repr

/-- The SQLite store: one list per table, plus the counter modelling
`uuidv4()` id generation (each generated id is the current counter
value). -/
structure DB where
  users : List UserRow
  goals : List GoalRow
  daily_logs : List DailyLogRow
  weight_entries : List WeightRow
  nextId : Nat
deriving DecidableEq, Repr

/-! ## Daily-log operations (`getLogForDate`, `toggleDailyLog`) -/

/-- The `WHERE user_id = ? AND goal_id = ? AND date = ?` predicate. -/
def tripleMatch (u g d : Nat) (r : DailyLogRow) : Bool :=
  r.user_id == u && r.goal_id == g && r.date == d

theorem tripleMatch_iff (u g d : Nat) (r : DailyLogRow) :
    tripleMatch u g d r = true ↔ (r.user_id = u ∧ r.goal_id = g ∧ r.date = d) := by
  simp [tripleMatch, and_assoc]

/-- `getLogForDate`: the single-row `SELECT` on the (user, goal, date)
triple (`.get` returns the first matching row, or no row). -/
def getLogForDate (u g d : Nat) (db : DB) : Option DailyLogRow :=
  db.daily_logs.find? (tripleMatch u g d)

/-- `toggleDailyLog`: flip the `completed` flag of the existing log for
the triple (via `UPDATE ... WHERE id = ?`), or insert a fresh log with
`completed = 1`. Returns the domain object (represented by its row) and
the resulting store. -/
def toggleDailyLog (u g d now : Nat) (db : DB) : DailyLogRow × DB :=
  match getLogForDate u g d db with
  | some existing =>
    let newCompleted : Nat := if existing.completed == 1 then 0 else 1
    let upd : DailyLogRow → DailyLogRow := fun x =>
      if x.id == existing.id then { x with completed := newCompleted, updated_at := now } else x
    ({ existing with completed := newCompleted, updated_at := now },
     { db with daily_logs := db.daily_logs.map upd })
  | none =>
    let row : DailyLogRow :=
      ⟨db.nextId, u, g, d, 1, none, none, now, now⟩
    (row, { db with daily_logs := db.daily_logs ++ [row], nextId := db.nextId + 1 })

/-- One toggle request: user, goal, date, and the clock value. -/
def applyToggles (db : DB) (ops : List (Nat × Nat × Nat × Nat)) : DB :=
  ops.foldl (fun db op => (toggleDailyLog op.1 op.2.1 op.2.2.1 op.2.2.2 db).2) db

/-- The schema's `UNIQUE (user_id, goal_id, date)` invariant: at most one
`daily_logs` row per triple. -/
def LogUnique (db : DB) : Prop :=
  ∀ u g d, (db.daily_logs.countP (tripleMatch u g d)) ≤ 1

/-- The completed-state of a triple as the UI observes it: the
`completed` flag of its log, or `false` when no log exists. -/
def completedState (u g d : Nat) (db : DB) : Bool :=
  match getLogForDate u g d db with
  | some r => r.completed == 1
  | none => false

/-! ## Weight-entry operations (`addWeightEntry`, `deleteWeightEntry`) -/

/-- Input of `addWeightEntry` (`Omit<WeightEntry, 'id' | 'createdAt'>`). -/
structure WeightInput where
  user_id : Nat
  date : Nat
  weight : ℚ
  unit : String
  notes : Option String
deriving DecidableEq, Repr

/-- A stored row conflicts with the incoming `INSERT OR REPLACE` when it
collides on the `id` primary key or on the `UNIQUE (user_id, date)`
constraint. -/
def weightConflict (newId : Nat) (e : WeightInput) (r : WeightRow) : Bool :=
  r.id == newId || (r.user_id == e.user_id && r.date == e.date)

/-- `addWeightEntry`: `INSERT OR REPLACE` — SQLite deletes every row
conflicting on any unique constraint, then inserts the new row. -/
def addWeightEntry (e : WeightInput) (now : Nat) (db : DB) : WeightRow × DB :=
  let id := db.nextId
  let row : WeightRow := ⟨id, e.user_id, e.date, e.weight, e.unit, e.notes, now⟩
  (row,
   { db with
      weight_entries :=
        db.weight_entries.filter (fun r => !(weightConflict id e r)) ++ [row],
      nextId := db.nextId + 1 })

/-- `deleteWeightEntry`: `DELETE FROM weight_entries WHERE id = ?`. -/
def deleteWeightEntry (id : Nat) (db : DB) : DB :=
  { db with weight_entries := db.weight_entries.filter (fun r => !(r.id == id)) }

/-! ## User update (`updateUser`) -/

/-- A sparse `updateUser` patch (`Partial<Pick<User, ...>>`); a present
field is a `some`. -/
structure UserPatch where
  name : Option String := none
  firstName : Option String := none
  lastName : Option String := none
  birthday : Option String := none
  profilePhoto : Option String := none
  avatarColor : Option String := none
deriving DecidableEq, Repr

/-- Apply the accumulated `SET` clauses of `updateUser` to one row;
`nameVal` is the value bound to `name = ?` when that clause is present
(either the patch's own `name` or the recomputed display name). -/
def applyUserPatch (p : UserPatch) (nameVal : Option String) (u : UserRow) : UserRow :=
  { u with
    name := nameVal.getD u.name
    first_name := p.firstName.or u.first_name
    last_name := p.lastName.or u.last_name
    birthday := p.birthday.or u.birthday
    profile_photo := p.profilePhoto.or u.profile_photo
    avatar_color := p.avatarColor.getD u.avatar_color }

/-- The `UPDATE users ... WHERE id = ?` run followed by the re-read
`SELECT`; a missing row on the re-read is the JS undefined-access
failure. -/
def writeUser (id : Nat) (p : UserPatch) (nameVal : Option String) (db : DB) :
    Except String UserRow × DB :=
  let db' := { db with users := db.users.map fun u => if u.id == id then applyUserPatch p nameVal u else u }
  match db'.users.find? (fun u => u.id == id) with
  | some row => (.ok row, db')
  | none => (.error "user not found", db')

/-- `updateUser`: build the `SET` clauses; when `firstName` or `lastName`
is present, recompute the display name from the resulting first/last name
(patch value if present, else the stored value, else the empty string)
and add it unless the patch already carries `name`; fail with
`No updates provided` when no clause was built. Reading the current row
for the recompute fails if the user does not exist (JS undefined
access). -/
def updateUser (id : Nat) (p : UserPatch) (db : DB) : Except String UserRow × DB :=
  if p.firstName.isSome || p.lastName.isSome then
    match db.users.find? (fun u => u.id == id) with
    | none => (.error "user not found", db)
    | some cur =>
      let f := p.firstName.getD (cur.first_name.getD "")
      let l := p.lastName.getD (cur.last_name.getD "")
      let newName := (f ++ " " ++ l).trim
      writeUser id p (some (p.name.getD newName)) db
  else if p.name.isNone && p.birthday.isNone && p.profilePhoto.isNone && p.avatarColor.isNone then
    (.error "No updates provided", db)
  else
    writeUser id p p.name db

/-! ## Goal and daily-log updates (`updateGoal`, `updateDailyLog`) -/

/-- A sparse `updateGoal` patch (`Partial<Goal>`, mutable columns). -/
structure GoalPatch where
  name : Option String := none
  type : Option String := none
  frequency : Option String := none
  targetValue : Option ℚ := none
  unit : Option String := none
  isActive : Option Bool := none
deriving DecidableEq, Repr

/-- The `SET` clauses of `updateGoal` applied to one row; `updated_at`
is always refreshed. -/
def applyGoalPatch (p : GoalPatch) (now : Nat) (g : GoalRow) : GoalRow :=
  { g with
    updated_at := now
    name := p.name.getD g.name
    type := p.type.getD g.type
    frequency := p.frequency.getD g.frequency
    target_value := p.targetValue.or g.target_value
    unit := p.unit.or g.unit
    is_active := match p.isActive with
      | some b => if b then 1 else 0
      | none => g.is_active }

/-- `updateGoal`: unconditional `UPDATE goals SET updated_at = ?, ...`
followed by the re-read `SELECT` (failing JS-style when the id does not
exist). -/
def updateGoal (id : Nat) (p : GoalPatch) (now : Nat) (db : DB) :
    Except String GoalRow × DB :=
  let db' := { db with goals := db.goals.map fun g => if g.id == id then applyGoalPatch p now g else g }
  match db'.goals.find? (fun g => g.id == id) with
  | some row => (.ok row, db')
  | none => (.error "goal not found", db')

/-- A sparse `updateDailyLog` patch. -/
structure DailyLogPatch where
  completed : Option Bool := none
  value : Option ℚ := none
  notes : Option String := none
deriving DecidableEq, Repr

/-- The `SET` clauses of `updateDailyLog` applied to one row;
`updated_at` is always refreshed. -/
def applyDailyLogPatch (p : DailyLogPatch) (now : Nat) (r : DailyLogRow) : DailyLogRow :=
  { r with
    updated_at := now
    completed := match p.completed with
      | some b => if b then 1 else 0
      | none => r.completed
    value := p.value.or r.value
    notes := p.notes.or r.notes }

/-- `updateDailyLog`: unconditional `UPDATE daily_logs SET updated_at = ?, ...`
followed by the re-read `SELECT`. -/
def updateDailyLog (id : Nat) (p : DailyLogPatch) (now : Nat) (db : DB) :
    Except String DailyLogRow × DB :=
  let db' := { db with daily_logs := db.daily_logs.map fun r => if r.id == id then applyDailyLogPatch p now r else r }
  match db'.daily_logs.find? (fun r => r.id == id) with
  | some row => (.ok row, db')
  | none => (.error "log not found", db')

/-! ## Month summary (`getDailyLogs`, `getMonthSummary`) -/

/-- Insert into a date-descending list (for `ORDER BY date DESC`). -/
def insertDateDesc (r : DailyLogRow) : List DailyLogRow → List DailyLogRow
  | [] => [r]
  | x :: xs => if x.date ≤ r.date then r :: x :: xs else x :: insertDateDesc r xs

/-- Sort rows by date, descending. -/
def sortDateDesc : List DailyLogRow → List DailyLogRow
  | [] => []
  | x :: xs => insertDateDesc x (sortDateDesc xs)

/-- `getDailyLogs`: the user's logs with `startD ≤ date ≤ endD`,
descending by date (string range comparison on ISO dates coincides with
the numeric encoding's order). -/
def getDailyLogs (u startD endD : Nat) (db : DB) : List DailyLogRow :=
  sortDateDesc (db.daily_logs.filter fun r =>
    r.user_id == u && startD ≤ r.date && r.date ≤ endD)

/-- `getGoals(userId).filter(g => g.isActive)` (the `created_at` ordering
of `getGoals` is irrelevant here: only membership and length are used). -/
def getActiveGoals (u : Nat) (db : DB) : List GoalRow :=
  db.goals.filter fun g => g.user_id == u && g.is_active == 1

/-- The numeric encoding of the ISO date string `YYYY-MM-DD`. -/
def encodeDate (y m d : Nat) : Nat := y * 10000 + m * 100 + d

/-- Result shape of `getMonthSummary` (the `month` echo field is
omitted; `totalDays` is the JS `getDate()` value). -/
structure MonthSummary where
  totalDays : Int
  completedDays : Nat
  partialDays : Nat
  streakDays : Nat
deriving DecidableEq, Repr

/-- Completed-log count of the group of `logs` carrying date `d`
(the `logsByDate` grouping evaluated at key `d`). -/
def completedCountOn (logs : List DailyLogRow) (d : Nat) : Nat :=
  (logs.filter fun l => l.date == d).countP fun l => l.completed == 1

/-- `getMonthSummary`: fetch the month's logs (inclusive day-31 upper
bound) and the currently-active goals; group logs by date; a date is
fully completed when its completed-log count equals the active-goal
count (non-zero), partial when it has at least one completed log but is
not fully completed; `streakDays` is the month's total completed-log
count; `totalDays` is `new Date(year, monthNum, 0).getDate()`. -/
def getMonthSummary (u year monthNum : Nat) (db : DB) : MonthSummary :=
  let startD := encodeDate year monthNum 1
  let endD := encodeDate year monthNum 31
  let logs := getDailyLogs u startD endD db
  let goals := getActiveGoals u db
  let dates := (logs.map (fun l => l.date)).dedup
  let completedDays := dates.countP fun d =>
    completedCountOn logs d == goals.length && decide (0 < goals.length)
  let partialDays := dates.countP fun d =>
    !(completedCountOn logs d == goals.length && decide (0 < goals.length))
      && decide (0 < completedCountOn logs d)
  let streakDays := logs.countP fun l => l.completed == 1
  let totalDays := jsTotalDays year monthNum
  ⟨totalDays, completedDays, partialDays, streakDays⟩

/-! ## Persistence gateway (`initDatabase` / `getDatabase` / `closeDatabase`)

The module-level `let db: Database | null` is an `Option Nat` (handles
are opaque tokens); constructing a new `Database` connection is modelled
by the `fresh` token parameter. -/

/-- Gateway state: the process-wide `db` variable. -/
abbrev GWState : Type := Option Nat

/-- `initDatabase()`: reuse the existing handle, or open (and keep) a
fresh one. -/
def initDatabase (fresh : Nat) : GWState → Nat × GWState
  | some h => (h, some h)
  | none => (fresh, some fresh)

/-- `getDatabase()`: the current handle, or the not-initialized error. -/
def getDatabase : GWState → Except String Nat
  | some h => .ok h
  | none => .error "Database not initialized. Call initDatabase() first."

/-- `closeDatabase()`: release the handle if one is held. -/
def closeDatabase : GWState → GWState
  | some _ => none
  | none => none

/-! ## Renderer day status (`getDayStatus` in `goalStore.ts`) -/

/-- The renderer's `Goal` domain object (fields used by the store). -/
structure FEGoal where
  id : Nat
  userId : Nat
  name : String
  isActive : Bool
deriving DecidableEq, Repr

/-- The renderer's `DailyLog` domain object (fields used by the store). -/
structure FELog where
  id : Nat
  userId : Nat
  goalId : Nat
  date : Nat
  completed : Bool
deriving DecidableEq, Repr

/-- Result of `getDayStatus` (the `DayStatus` shared type). -/
structure DayStatus where
  date : Nat
  completedGoals : List Nat
  totalGoals : Nat
  isFullyComplete : Bool
deriving DecidableEq, Repr

/-- The goal store's state: the `goals` array and the `dailyLogs` map
keyed by date. -/
structure GoalStoreState where
  goals : List FEGoal
  dailyLogs : List (Nat × List FELog)
deriving DecidableEq, Repr

/-- `dailyLogs.get(date) || []`. -/
def logsForDate (st : GoalStoreState) (date : Nat) : List FELog :=
  ((st.dailyLogs.find? (fun e => e.1 == date)).map (fun e => e.2)).getD []

/-- `getDayStatus`: the date's logs, the active goals, the goal ids of
the completed logs, and full completion when the completed count equals
the (non-zero) active-goal count. -/
def getDayStatus (st : GoalStoreState) (date : Nat) : DayStatus :=
  let logs := logsForDate st date
  let activeGoals := st.goals.filter (fun g => g.isActive)
  let completedGoals := (logs.filter (fun l => l.completed)).map (fun l => l.goalId)
  ⟨date, completedGoals, activeGoals.length,
   decide (0 < activeGoals.length) && completedGoals.length == activeGoals.length⟩

/-! ## Theorems -/

/-- C1: on completed dates {2024-06-01, 06-02, 06-03, 06-05} with today
= 2024-06-05, `getStreak` yields currentStreak = 1 and longestStreak =
3; and in general the longest streak is the maximum length of a run of
consecutive calendar days in the descending completed-date list,
including the final run after the loop ends. -/
theorem getStreak_example_and_longest_is_max_run :
    (getStreak 7 (civilToDays 2024 6 5)
        [civilToDays 2024 6 5, civilToDays 2024 6 3, civilToDays 2024 6 2,
         civilToDays 2024 6 1]
      = ⟨7, 1, 3, some (civilToDays 2024 6 5)⟩)
    ∧ ∀ (gid : Nat) (today : Int) (dates : List Int),
        (getStreak gid today dates).longestStreak = maxRunLength dates := by
  constructor
  · decide
  · intro gid today dates
    cases dates with
    | nil => rfl
    | cons d rest =>
        simp only [getStreak, maxRunLength, runLengths]
        rw [longestLoop_eq_runs]
        simp

/-- C3: when the most recent completed date (the head of the descending
date list) is strictly more than one day before today, the current
streak is 0 regardless of history; and with no completed logs at all the
streak is all-zero with no last-completed date. -/
theorem getStreak_stale_zero_and_empty_zero :
    (∀ (gid : Nat) (today : Int) (dates : List Int) (d : Int),
        List.Sorted (· > ·) dates → dates.head? = some d → d + 1 < today →
        (getStreak gid today dates).currentStreak = 0)
    ∧ ∀ (gid : Nat) (today : Int), getStreak gid today [] = ⟨gid, 0, 0, none⟩ := by
  constructor
  · intro gid today dates d _hs hhead hlt
    cases dates with
    | nil => simp at hhead
    | cons d0 rest =>
        simp only [List.head?_cons, Option.some.injEq] at hhead
        subst hhead
        have hne : ¬(d0 = today ∨ d0 = today - 1) := by omega
        simp [getStreak, hne]
  · intro gid today
    rfl

/-- Witness for C3 at a concrete stale goal and at the empty history. -/
theorem getStreak_stale_zero_and_empty_zero_witness :
    (getStreak 1 10 [5, 3]).currentStreak = 0
    ∧ getStreak 1 10 [] = ⟨1, 0, 0, none⟩ :=
  ⟨getStreak_stale_zero_and_empty_zero.1 1 10 [5, 3] 5 (by decide) (by decide)
    (by decide),
   getStreak_stale_zero_and_empty_zero.2 1 10⟩

/-- C9: re-initialising after a successful `init` is a no-op returning
the same handle; `get` before `init` or after `close` fails with the
not-initialized error; `close` on a closed gateway is an idempotent
no-op. -/
theorem gateway_lifecycle :
    (∀ (f1 f2 : Nat) (s s' : GWState) (h : Nat),
        initDatabase f1 s = (h, s') → initDatabase f2 s' = (h, s'))
    ∧ (getDatabase (none : GWState)
        = .error "Database not initialized. Call initDatabase() first.")
    ∧ (∀ s : GWState, getDatabase (closeDatabase s)
        = .error "Database not initialized. Call initDatabase() first.")
    ∧ (∀ s : GWState, closeDatabase (closeDatabase s) = closeDatabase s)
    ∧ closeDatabase (none : GWState) = none := by
  refine ⟨?_, rfl, ?_, ?_, rfl⟩
  · intro f1 f2 s s' h heq
    cases s with
    | some h0 =>
        simp only [initDatabase, Prod.mk.injEq] at heq
        obtain ⟨rfl, rfl⟩ := heq
        rfl
    | none =>
        simp only [initDatabase, Prod.mk.injEq] at heq
        obtain ⟨rfl, rfl⟩ := heq
        rfl
  · intro s; cases s <;> rfl
  · intro s; cases s <;> rfl

/-- Witness for C9: a concrete second `init` reusing the first handle. -/
theorem gateway_lifecycle_witness : initDatabase 9 (some 5) = (5, some 5) :=
  gateway_lifecycle.1 5 9 none (some 5) 5 rfl

/-- Rows surviving the `INSERT OR REPLACE` deletion never match the
incoming entry's `(user_id, date)` key. -/
theorem filter_after_replace_empty (id : Nat) (e : WeightInput) (l : List WeightRow) :
    (l.filter fun r => !(weightConflict id e r)).filter
        (fun r => r.user_id == e.user_id && r.date == e.date) = [] := by
  induction l with
  | nil => rfl
  | cons x xs ih =>
      simp only [List.filter_cons]
      by_cases hc : weightConflict id e x = true
      · simp [hc, ih]
      · simp only [weightConflict, Bool.or_eq_true, Bool.and_eq_true, beq_iff_eq,
          not_or] at hc
        have hp : (x.user_id == e.user_id && x.date == e.date) = false := by
          by_cases h1 : x.user_id = e.user_id
          · have h2 : ¬ x.date = e.date := fun hdd => hc.2 ⟨h1, hdd⟩
            simp [h1, h2]
          · simp [h1]
        have hc' : weightConflict id e x = false := by
          simp only [weightConflict, Bool.or_eq_false_iff, Bool.and_eq_false_iff]
          refine ⟨by simp [hc.1], ?_⟩
          by_cases h1 : x.user_id = e.user_id
          · have h2 : ¬ x.date = e.date := fun hdd => hc.2 ⟨h1, hdd⟩
            exact Or.inr (by simp [h2])
          · exact Or.inl (by simp [h1])
        simp [hc', hp, ih]

/-- C4: two `addWeightEntry` calls on the same (user, date) leave exactly
one row for that pair, carrying the second call's weight, unit and notes
(insert-or-replace; the operation is total, never an error). -/
theorem addWeightEntry_same_pair_second_wins
    (db : DB) (e1 e2 : WeightInput) (now1 now2 : Nat)
    (hu : e1.user_id = e2.user_id) (hd : e1.date = e2.date) :
    ((addWeightEntry e2 now2 (addWeightEntry e1 now1 db).2).2.weight_entries.filter
        (fun r => r.user_id == e2.user_id && r.date == e2.date))
      = [⟨(addWeightEntry e1 now1 db).2.nextId, e2.user_id, e2.date, e2.weight,
          e2.unit, e2.notes, now2⟩] := by
  simp only [addWeightEntry, List.filter_append]
  rw [filter_after_replace_empty]
  simp [weightConflict, hu, hd]

/-- Witness for C4 on a concrete store and two entries for one day. -/
theorem addWeightEntry_same_pair_second_wins_witness :
    ((addWeightEntry ⟨1, 20240102, 152, "kg", some "evening"⟩ 7
        (addWeightEntry ⟨1, 20240102, 150, "lbs", none⟩ 5
          ⟨[], [], [], [], 40⟩).2).2.weight_entries.filter
        (fun r => r.user_id == 1 && r.date == 20240102))
      = [⟨41, 1, 20240102, 152, "kg", some "evening", 7⟩] :=
  addWeightEntry_same_pair_second_wins ⟨[], [], [], [], 40⟩
    ⟨1, 20240102, 150, "lbs", none⟩ ⟨1, 20240102, 152, "kg", some "evening"⟩
    5 7 rfl rfl

/-- The primary-key/freshness invariant of the `weight_entries` table:
ids are pairwise distinct and below the generator counter. -/
def WeightIdsOk (db : DB) : Prop :=
  (db.weight_entries.map (fun r => r.id)).Nodup
    ∧ ∀ r ∈ db.weight_entries, r.id < db.nextId

/-- C10: `addWeightEntry` stores the entry under a freshly generated id
even when replacing; the replaced entry's id disappears from the store,
so deleting by the old id afterwards deletes nothing. -/
theorem addWeightEntry_fresh_id_old_id_gone
    (db : DB) (hids : WeightIdsOk db) (r : WeightRow) (hr : r ∈ db.weight_entries)
    (e : WeightInput) (now : Nat)
    (hu : e.user_id = r.user_id) (hd : e.date = r.date) :
    (addWeightEntry e now db).1.id = db.nextId
    ∧ r.id ≠ (addWeightEntry e now db).1.id
    ∧ (∀ x ∈ (addWeightEntry e now db).2.weight_entries, x.id ≠ r.id)
    ∧ deleteWeightEntry r.id (addWeightEntry e now db).2 = (addWeightEntry e now db).2 := by
  obtain ⟨hnd, hlt⟩ := hids
  have hrlt : r.id < db.nextId := hlt r hr
  have hnone : ∀ x ∈ (addWeightEntry e now db).2.weight_entries, x.id ≠ r.id := by
    intro x hx
    simp only [addWeightEntry, List.mem_append, List.mem_filter,
      List.mem_singleton] at hx
    rcases hx with ⟨hxmem, hxsurv⟩ | rfl
    · intro hxid
      have hxr : x = r := by
        have hinj := List.inj_on_of_nodup_map hnd
        exact hinj hxmem hr (by simpa using hxid)
      subst hxr
      simp only [weightConflict, Bool.not_eq_true', Bool.or_eq_false_iff,
        Bool.and_eq_false_iff] at hxsurv
      rcases hxsurv.2 with hbad | hbad
      · simp [hu] at hbad
      · simp [hd] at hbad
    · simpa using hrlt.ne'
  refine ⟨rfl, by simpa using hrlt.ne, hnone, ?_⟩
  show { (addWeightEntry e now db).2 with
          weight_entries := (addWeightEntry e now db).2.weight_entries.filter
            (fun x => !(x.id == r.id)) }
      = (addWeightEntry e now db).2
  have : (addWeightEntry e now db).2.weight_entries.filter (fun x => !(x.id == r.id))
      = (addWeightEntry e now db).2.weight_entries := by
    rw [List.filter_eq_self]
    intro a ha
    simpa using hnone a ha
  rw [this]

/-- Witness for C10 on a concrete store with one entry being replaced. -/
theorem addWeightEntry_fresh_id_old_id_gone_witness :
    (addWeightEntry ⟨1, 20240102, 151, "lbs", none⟩ 9
        ⟨[], [], [], [⟨3, 1, 20240102, 150, "lbs", none, 2⟩], 4⟩).1.id = 4
    ∧ (3 : Nat) ≠ (addWeightEntry ⟨1, 20240102, 151, "lbs", none⟩ 9
        ⟨[], [], [], [⟨3, 1, 20240102, 150, "lbs", none, 2⟩], 4⟩).1.id
    ∧ (∀ x ∈ (addWeightEntry ⟨1, 20240102, 151, "lbs", none⟩ 9
        ⟨[], [], [], [⟨3, 1, 20240102, 150, "lbs", none, 2⟩], 4⟩).2.weight_entries,
        x.id ≠ 3)
    ∧ deleteWeightEntry 3 (addWeightEntry ⟨1, 20240102, 151, "lbs", none⟩ 9
        ⟨[], [], [], [⟨3, 1, 20240102, 150, "lbs", none, 2⟩], 4⟩).2
      = (addWeightEntry ⟨1, 20240102, 151, "lbs", none⟩ 9
        ⟨[], [], [], [⟨3, 1, 20240102, 150, "lbs", none, 2⟩], 4⟩).2 :=
  addWeightEntry_fresh_id_old_id_gone
    ⟨[], [], [], [⟨3, 1, 20240102, 150, "lbs", none, 2⟩], 4⟩
    ⟨by decide, by decide⟩
    ⟨3, 1, 20240102, 150, "lbs", none, 2⟩ (by decide)
    ⟨1, 20240102, 151, "lbs", none⟩ 9 rfl rfl

/-- A renderer state with one active goal (id 1, no logs) and one
inactive goal (id 2) whose log on date 5 is completed. -/
def dayStatusState : GoalStoreState :=
  ⟨[⟨1, 1, "A", true⟩, ⟨2, 1, "B", false⟩],
   [(5, [⟨100, 1, 2, 5, true⟩])]⟩

/-- C6 counterexample: `getDayStatus` does not intersect the date's logs
with the active goals — on `dayStatusState` it reports the inactive goal
2 as completed (goal 2 is not among the active goals) and declares the
day fully complete although no active goal is completed. -/
theorem getDayStatus_no_intersection_counterexample :
    (getDayStatus dayStatusState 5).isFullyComplete = true
    ∧ (getDayStatus dayStatusState 5).completedGoals = [2]
    ∧ (dayStatusState.goals.filter (fun g => g.isActive)).map (fun g => g.id) = [1]
    ∧ ((dayStatusState.goals.filter (fun g => g.isActive)).map (fun g => g.id)).all
        (fun i => i != 2) = true := by
  decide

/-- C6 amended: `getDayStatus` reports the completed goal ids of all of
the date's logs (without intersecting with the active goals), the count
of active goals, and full completion exactly when that completed-log
count equals the active-goal count and the active-goal count is positive
(in particular, a day with zero active goals is never fully complete). -/
theorem getDayStatus_fields :
    ∀ (st : GoalStoreState) (d : Nat),
      (getDayStatus st d).completedGoals
        = ((logsForDate st d).filter (fun l => l.completed)).map (fun l => l.goalId)
      ∧ (getDayStatus st d).totalGoals
        = (st.goals.filter (fun g => g.isActive)).length
      ∧ ((getDayStatus st d).isFullyComplete = true ↔
          0 < (st.goals.filter (fun g => g.isActive)).length ∧
            ((logsForDate st d).filter (fun l => l.completed)).length
              = (st.goals.filter (fun g => g.isActive)).length)
      ∧ (st.goals.filter (fun g => g.isActive) = [] →
          (getDayStatus st d).isFullyComplete = false) := by
  intro st d
  refine ⟨rfl, rfl, ?_, ?_⟩
  · simp [getDayStatus]
  · intro h
    simp [getDayStatus, h]

/-- Witness for C6's amended theorem: a day with zero active goals is
not fully complete. -/
theorem getDayStatus_fields_witness :
    (getDayStatus ⟨[], []⟩ 3).isFullyComplete = false :=
  (getDayStatus_fields ⟨[], []⟩ 3).2.2.2 rfl

/-- Finding by a predicate after an `UPDATE ... WHERE` that rewrites
exactly the matching rows (and preserves the predicate) finds the
rewritten first match. -/
theorem find?_map_guarded {α : Type} (p : α → Bool) (f : α → α)
    (hf : ∀ x, p (f x) = p x) :
    ∀ l : List α,
      (l.map fun x => if p x then f x else x).find? p
        = (l.find? p).map fun x => if p x then f x else x
  | [] => rfl
  | a :: l => by
      by_cases h : p a = true
      · simp [List.find?_cons, h, hf]
      · simp only [List.map_cons, List.find?_cons, if_neg h]
        simp only [Bool.not_eq_true] at h
        simp [h, find?_map_guarded p f hf l]

/-- C7: an `updateUser` patch carrying only `firstName` (resp. only
`lastName`) rewrites the stored record's display name to the new first
name joined by a single space to the stored last name (resp. stored
first name joined to the new last name), trimmed, in the same update as
the changed name field; the updated record is returned. -/
theorem updateUser_display_name_sync
    (db : DB) (uid : Nat) (row : UserRow)
    (hfind : db.users.find? (fun u => u.id == uid) = some row) :
    (∀ (f ln : String), row.last_name = some ln →
        updateUser uid { firstName := some f } db
          = (.ok { row with name := (f ++ " " ++ ln).trim, first_name := some f },
             { db with users := db.users.map fun u =>
                 if u.id == uid
                 then { u with name := (f ++ " " ++ ln).trim, first_name := some f }
                 else u }))
    ∧ (∀ (l fn : String), row.first_name = some fn →
        updateUser uid { lastName := some l } db
          = (.ok { row with name := (fn ++ " " ++ l).trim, last_name := some l },
             { db with users := db.users.map fun u =>
                 if u.id == uid
                 then { u with name := (fn ++ " " ++ l).trim, last_name := some l }
                 else u })) := by
  have hrow : (row.id == uid) = true := by
    have h := List.find?_some hfind
    simpa using h
  constructor
  · intro f ln hln
    simp only [updateUser, writeUser, Option.isSome_some, Option.isSome_none,
      Bool.true_or, Bool.or_true, if_pos, hfind, hln, Option.getD_some,
      Option.getD_none]
    rw [find?_map_guarded (fun u => u.id == uid)
      (applyUserPatch { firstName := some f } (some ((f ++ " " ++ ln).trim)))
      (fun x => rfl) db.users]
    rw [hfind]
    simp only [Option.map_some', hrow, if_pos]
    simp [Prod.mk.injEq, applyUserPatch, hln, Option.or]
  · intro l fn hfn
    simp only [updateUser, writeUser, Option.isSome_some, Option.isSome_none,
      Bool.true_or, Bool.or_true, if_pos, hfind, hfn, Option.getD_some,
      Option.getD_none]
    rw [find?_map_guarded (fun u => u.id == uid)
      (applyUserPatch { lastName := some l } (some ((fn ++ " " ++ l).trim)))
      (fun x => rfl) db.users]
    rw [hfind]
    simp only [Option.map_some', hrow, if_pos]
    simp [Prod.mk.injEq, applyUserPatch, hfn, Option.or]

/-- A store with a single user, for exercising `updateUser`. -/
def c7db : DB :=
  ⟨[⟨1, "Ada Lovelace", some "Ada", some "Lovelace", none, none, "#6366f1", 0⟩],
   [], [], [], 10⟩

/-- Witness for C7: patching only the first name of the stored user
recomputes the display name from the new first name and the stored last
name. -/
theorem updateUser_display_name_sync_witness :
    updateUser 1 { firstName := some "Grace" } c7db
      = (.ok { id := 1, name := ("Grace" ++ " " ++ "Lovelace").trim,
               first_name := some "Grace", last_name := some "Lovelace",
               birthday := none, profile_photo := none,
               avatar_color := "#6366f1", created_at := 0 },
         { c7db with users := c7db.users.map fun u =>
             if u.id == 1
             then { u with name := ("Grace" ++ " " ++ "Lovelace").trim, first_name := some "Grace" }
             else u }) :=
  (updateUser_display_name_sync c7db 1
      ⟨1, "Ada Lovelace", some "Ada", some "Lovelace", none, none, "#6366f1", 0⟩
      rfl).1 "Grace" "Lovelace" rfl

/-- C8: an `updateUser` call with an all-absent patch fails with the
`No updates provided` error and leaves the store untouched, while
`updateGoal` and `updateDailyLog` with all-absent patches succeed,
refresh only the `updated_at` timestamp of the target row, and return
the stored entity. -/
theorem empty_patch_update_behaviour :
    (∀ (db : DB) (uid : Nat),
        updateUser uid {} db = (.error "No updates provided", db))
    ∧ (∀ (db : DB) (id now : Nat) (g : GoalRow),
        db.goals.find? (fun x => x.id == id) = some g →
        updateGoal id {} now db
          = (.ok { g with updated_at := now },
             { db with goals := db.goals.map fun x =>
                 if x.id == id then { x with updated_at := now } else x }))
    ∧ (∀ (db : DB) (id now : Nat) (r : DailyLogRow),
        db.daily_logs.find? (fun x => x.id == id) = some r →
        updateDailyLog id {} now db
          = (.ok { r with updated_at := now },
             { db with daily_logs := db.daily_logs.map fun x =>
                 if x.id == id then { x with updated_at := now } else x })) := by
  refine ⟨fun db uid => rfl, ?_, ?_⟩
  · intro db id now g hfind
    have hrow : (g.id == id) = true := by
      have h := List.find?_some hfind
      simpa using h
    have hid : g.id = id := by simpa using hrow
    simp only [updateGoal]
    rw [find?_map_guarded (fun x => x.id == id) (applyGoalPatch {} now)
      (fun x => rfl) db.goals, hfind]
    simp [hid, applyGoalPatch, Option.or, Prod.mk.injEq]
  · intro db id now r hfind
    have hrow : (r.id == id) = true := by
      have h := List.find?_some hfind
      simpa using h
    have hid : r.id = id := by simpa using hrow
    simp only [updateDailyLog]
    rw [find?_map_guarded (fun x => x.id == id) (applyDailyLogPatch {} now)
      (fun x => rfl) db.daily_logs, hfind]
    simp [hid, applyDailyLogPatch, Option.or, Prod.mk.injEq]

/-- A store with one goal and one log, for exercising empty patches. -/
def c8db : DB :=
  ⟨[⟨1, "Ada Lovelace", some "Ada", some "Lovelace", none, none, "#6366f1", 0⟩],
   [⟨10, 1, "Workout", "workout", "daily", none, none, 1, 0, 0⟩],
   [⟨100, 1, 10, 20240601, 1, none, none, 0, 0⟩],
   [], 200⟩

/-- Witness for C8 on `c8db`: empty `updateUser` patch errors; empty
`updateGoal` / `updateDailyLog` patches refresh only `updated_at`. -/
theorem empty_patch_update_behaviour_witness :
    updateUser 1 {} c8db = (.error "No updates provided", c8db)
    ∧ updateGoal 10 {} 99 c8db
      = (.ok ⟨10, 1, "Workout", "workout", "daily", none, none, 1, 0, 99⟩,
         { c8db with goals := c8db.goals.map fun x =>
             if x.id == 10 then { x with updated_at := 99 } else x })
    ∧ updateDailyLog 100 {} 99 c8db
      = (.ok ⟨100, 1, 10, 20240601, 1, none, none, 0, 99⟩,
         { c8db with daily_logs := c8db.daily_logs.map fun x =>
             if x.id == 100 then { x with updated_at := 99 } else x }) :=
  ⟨empty_patch_update_behaviour.1 c8db 1,
   empty_patch_update_behaviour.2.1 c8db 10 99
     ⟨10, 1, "Workout", "workout", "daily", none, none, 1, 0, 0⟩ rfl,
   empty_patch_update_behaviour.2.2 c8db 100 99
     ⟨100, 1, 10, 20240601, 1, none, none, 0, 0⟩ rfl⟩

/-- The in-place `UPDATE` of a log's `completed`/`updated_at` fields
never changes any (user, goal, date) triple count. -/
theorem countP_triple_map_guard (l : List DailyLogRow) (rid c now u g d : Nat) :
    (l.map fun x =>
        if x.id == rid then { x with completed := c, updated_at := now } else x).countP
        (tripleMatch u g d)
      = l.countP (tripleMatch u g d) := by
  rw [List.countP_map]
  apply List.countP_congr
  intro a _
  by_cases hx : (a.id == rid) = true <;> simp [Function.comp, tripleMatch, hx]

/-- A search that fails on the first segment continues on the second. -/
theorem find?_append_none {α : Type} (p : α → Bool) (l₁ l₂ : List α)
    (h : l₁.find? p = none) : (l₁ ++ l₂).find? p = l₂.find? p := by
  induction l₁ with
  | nil => rfl
  | cons a l ih =>
      cases hpa : p a with
      | true => simp [List.find?_cons, hpa] at h
      | false =>
          simp only [List.find?_cons, hpa] at h
          simpa [List.find?_cons, hpa] using ih h

/-- One toggle preserves the `UNIQUE (user_id, goal_id, date)` invariant. -/
theorem toggle_LogUnique (u g d now : Nat) (db : DB) (h : LogUnique db) :
    LogUnique (toggleDailyLog u g d now db).2 := by
  intro u' g' d'
  cases hfind : getLogForDate u g d db with
  | some r =>
      simp only [toggleDailyLog, hfind]
      rw [countP_triple_map_guard]
      exact h u' g' d'
  | none =>
      simp only [toggleDailyLog, hfind]
      rw [List.countP_append]
      by_cases hm : u' = u ∧ g' = g ∧ d' = d
      · obtain ⟨rfl, rfl, rfl⟩ := hm
        have h0 : db.daily_logs.countP (tripleMatch u' g' d') = 0 := by
          rw [List.countP_eq_zero]
          intro a ha
          exact List.find?_eq_none.mp (by simpa [getLogForDate] using hfind) a ha
        rw [h0]
        simp [tripleMatch]
      · cases htb : tripleMatch u' g' d'
            (⟨db.nextId, u, g, d, 1, none, none, now, now⟩ : DailyLogRow) with
        | false =>
            simp only [List.countP_cons, List.countP_nil, htb]
            simpa using h u' g' d'
        | true =>
            have htrip := (tripleMatch_iff u' g' d' _).mp htb
            simp only at htrip
            exact absurd ⟨htrip.1.symm, htrip.2.1.symm, htrip.2.2.symm⟩ hm

/-- Any sequence of toggles preserves the uniqueness invariant. -/
theorem applyToggles_LogUnique (ops : List (Nat × Nat × Nat × Nat)) :
    ∀ db : DB, LogUnique db → LogUnique (applyToggles db ops) := by
  induction ops with
  | nil => exact fun db h => h
  | cons op rest ih =>
      intro db h
      exact ih _ (toggle_LogUnique op.1 op.2.1 op.2.2.1 op.2.2.2 db h)

/-- After toggling an existing log, the triple's stored log is the same
row with `completed` flipped and `updated_at` refreshed. -/
theorem getLogForDate_after_toggle_some (u g d now : Nat) (db : DB) (r : DailyLogRow)
    (hfind : getLogForDate u g d db = some r) :
    getLogForDate u g d (toggleDailyLog u g d now db).2
      = some { r with completed := (if r.completed == 1 then 0 else 1), updated_at := now } := by
  have hfind' : List.find? (tripleMatch u g d) db.daily_logs = some r := by
    simpa [getLogForDate] using hfind
  simp only [toggleDailyLog, getLogForDate, hfind']
  rw [List.find?_map]
  have hcomp : ((tripleMatch u g d) ∘ fun x =>
      if x.id == r.id
      then { x with completed := if r.completed == 1 then 0 else 1, updated_at := now }
      else x) = tripleMatch u g d := by
    funext x
    by_cases hx : (x.id == r.id) = true <;> simp [Function.comp, tripleMatch, hx]
  rw [hcomp]
  rw [hfind']
  simp

/-- After toggling an absent log, the triple's stored log is the freshly
inserted completed row. -/
theorem getLogForDate_after_toggle_none (u g d now : Nat) (db : DB)
    (hfind : getLogForDate u g d db = none) :
    getLogForDate u g d (toggleDailyLog u g d now db).2
      = some ⟨db.nextId, u, g, d, 1, none, none, now, now⟩ := by
  have hfind' : List.find? (tripleMatch u g d) db.daily_logs = none := by
    simpa [getLogForDate] using hfind
  simp only [toggleDailyLog, getLogForDate, hfind']
  rw [find?_append_none _ _ _ hfind']
  simp [List.find?_cons, tripleMatch]

/-- C2: from any store satisfying the schema's triple-uniqueness, every
sequence of `toggleDailyLog` calls preserves it (at most one log per
(user, goal, date) ever exists); a toggle on an existing log flips its
`completed` flag in place via an id-targeted update, a toggle with no
existing log inserts a fresh log with `completed = 1`, and each toggle
negates the observed completed-state of its triple, so repeated toggles
alternate. -/
theorem toggleDailyLog_unique_flip_create (db : DB) (hdb : LogUnique db) :
    (∀ ops, LogUnique (applyToggles db ops))
    ∧ (∀ u g d now r, getLogForDate u g d db = some r →
        toggleDailyLog u g d now db
          = ({ r with completed := if r.completed == 1 then 0 else 1, updated_at := now },
             { db with daily_logs := db.daily_logs.map fun x =>
                 if x.id == r.id
                 then { x with completed := if r.completed == 1 then 0 else 1, updated_at := now }
                 else x }))
    ∧ (∀ u g d now, getLogForDate u g d db = none →
        toggleDailyLog u g d now db
          = (⟨db.nextId, u, g, d, 1, none, none, now, now⟩,
             { db with
                daily_logs := db.daily_logs ++ [⟨db.nextId, u, g, d, 1, none, none, now, now⟩],
                nextId := db.nextId + 1 }))
    ∧ (∀ u g d now,
        completedState u g d (toggleDailyLog u g d now db).2
          = !(completedState u g d db)) := by
  refine ⟨fun ops => applyToggles_LogUnique ops db hdb, ?_, ?_, ?_⟩
  · intro u g d now r hfind
    simp [toggleDailyLog, hfind]
  · intro u g d now hfind
    simp [toggleDailyLog, hfind]
  · intro u g d now
    cases hfind : getLogForDate u g d db with
    | some r =>
        have hafter := getLogForDate_after_toggle_some u g d now db r hfind
        simp only [completedState, hafter, hfind]
        cases hc : (r.completed == 1) <;> simp [hc]
    | none =>
        have hafter := getLogForDate_after_toggle_none u g d now db hfind
        simp only [completedState, hafter, hfind]
        rfl

/-- Witness for C2: a toggle on the empty store flips the observed
completed-state of its triple. -/
theorem toggleDailyLog_unique_flip_create_witness :
    completedState 1 2 3 (toggleDailyLog 1 2 3 4 ⟨[], [], [], [], 0⟩).2
      = !(completedState 1 2 3 ⟨[], [], [], [], 0⟩) :=
  (toggleDailyLog_unique_flip_create ⟨[], [], [], [], 0⟩
      (fun u g d => by simp)).2.2.2 1 2 3 4

/-- A store with one user, one active goal, and June 2024 logs completed
on the 1st–3rd plus an uncompleted log on the 4th. -/
def juneDB : DB :=
  ⟨[⟨1, "Ada Lovelace", some "Ada", some "Lovelace", none, none, "#6366f1", 0⟩],
   [⟨10, 1, "Workout", "workout", "daily", none, none, 1, 0, 0⟩],
   [⟨100, 1, 10, 20240601, 1, none, none, 0, 0⟩,
    ⟨101, 1, 10, 20240602, 1, none, none, 0, 0⟩,
    ⟨102, 1, 10, 20240603, 1, none, none, 0, 0⟩,
    ⟨103, 1, 10, 20240604, 0, none, none, 0, 0⟩],
   [], 200⟩

/-- C5 counterexample: for the in-format month "0000-02"
(`Number("0000") = 0`) the program's totalDays is
`new Date(0, 2, 0).getDate()` = 28 — February 1900 via the
two-digit-year rule — while the true number of days of February of
year 0 is 29. -/
theorem getMonthSummary_totalDays_counterexample :
    (getMonthSummary 1 0 2 ⟨[], [], [], [], 0⟩).totalDays = 28
    ∧ daysInMonth 0 2 = 29 := by decide

/-- C5 (amended): on the June-2024 example store the month summary is
completedDays = 3, partialDays = 0, streakDays = 3, totalDays = 30; in
general `totalDays` (day 0 of the following month) is the number of
days of the target month after the JS `Date` constructor's
two-digit-year remapping of the year — hence the true number of days of
the target month for every month except February of year 0. -/
theorem getMonthSummary_example_and_totalDays :
    getMonthSummary 1 2024 6 juneDB = ⟨30, 3, 0, 3⟩
    ∧ (∀ (u year monthNum : Nat) (db : DB), 1 ≤ monthNum → monthNum ≤ 12 →
        (getMonthSummary u year monthNum db).totalDays
          = daysInMonth (jsFullYear year) monthNum)
    ∧ (∀ (u year monthNum : Nat) (db : DB), 1 ≤ monthNum → monthNum ≤ 12 →
        ¬(year = 0 ∧ monthNum = 2) →
        (getMonthSummary u year monthNum db).totalDays
          = daysInMonth year monthNum) := by
  refine ⟨by decide, ?_, ?_⟩
  · intro u y m db h1 h2
    simp only [getMonthSummary]
    exact jsTotalDays_eq_daysInMonth_fullYear y m (by exact_mod_cast h1)
      (by exact_mod_cast h2)
  · intro u y m db h1 h2 hy
    simp only [getMonthSummary]
    refine jsTotalDays_eq_daysInMonth y m (by exact_mod_cast h1)
      (by exact_mod_cast h2) ?_
    rintro ⟨hy0, hm2⟩
    exact hy ⟨by exact_mod_cast hy0, by exact_mod_cast hm2⟩

/-- Witness for C5's amended general parts at June 2024 on the example
store. -/
theorem getMonthSummary_example_and_totalDays_witness :
    (getMonthSummary 1 2024 6 juneDB).totalDays = daysInMonth 2024 6 :=
  getMonthSummary_example_and_totalDays.2.2 1 2024 6 juneDB (by decide)
    (by decide) (by decide)
